import Mathlib

/-!
Shallow embedding of `src/seoul_scraper.py`, a single-file scraper that
walks a paginated attraction listing, fetches each item's detail page,
extracts a description and transportation info with heuristic fallback
chains, and accumulates records.

The HTML documents handed to the script by `BeautifulSoup(...)` are
modelled as a tree of elements and text nodes; the BeautifulSoup query
primitives the script uses (`find`, `find_all`, `get_text`,
`find_next_sibling`, `find_parent`, `extract`) are modelled as preorder
searches over that tree.  The network is modelled as a map from URLs to
fetch outcomes.  Python strings are modelled through their character
lists; `str.strip` and slicing are given explicit models below.
-/

/-! ### Python string primitives -/

/-- Model of Python `str.strip()`'s character test (the documents and
strings of this program use only ASCII whitespace). -/
def wsChar (c : Char) : Bool := c.isWhitespace

/-- Strip on the right: remove the longest all-whitespace suffix. -/
def rstripL (l : List Char) : List Char := (l.reverse.dropWhile wsChar).reverse

/-- Model of Python `str.strip()` on a character list. -/
def pyStripL (l : List Char) : List Char := rstripL (l.dropWhile wsChar)

/-- Model of Python `str.strip()`. -/
def pyStrip (s : String) : String := String.mk (pyStripL s.data)

/-- Model of Python slicing `s[:n]`. -/
def pyTake (n : Nat) (s : String) : String := String.mk (s.data.take n)

/-- Model of Python `s.startswith(p)`. -/
def pyStartsWith (p s : String) : Bool := p.data.isPrefixOf s.data

/-- Model of Python `s.endswith(p)`. -/
def pyEndsWith (p s : String) : Bool := p.data.isSuffixOf s.data

/-- Substring search on character lists (`re.search` of a literal). -/
def containsL (pat : List Char) : List Char → Bool
  | [] => pat.isEmpty
  | c :: rest => pat.isPrefixOf (c :: rest) || containsL pat rest

/-- Model of `pat in s` / `re.search(pat, s)` for a literal pattern. -/
def pyContains (pat s : String) : Bool := containsL pat.data s.data

/-- Case-insensitive substring search: `re.search(lit, s, re.I)` for a
literal alternative `lit` (the program's patterns are lowercase-safe
alternations of ASCII literals). -/
def ciSearch (pat hay : String) : Bool :=
  containsL (pat.data.map Char.toLower) (hay.data.map Char.toLower)

/-- Case-insensitive search of any of the regex alternatives in `pats`. -/
def reAny (pats : List String) (s : String) : Bool := pats.any fun p => ciSearch p s

/-- Model of the one non-literal regex piece, `Line [0-9]` under `re.I`:
scans a lowercased character list for "line " followed by a digit. -/
def lineDigitScan : List Char → Bool
  | [] => false
  | c :: rest =>
      (c == 'l' && "ine ".data.isPrefixOf rest &&
        (match rest.drop 4 with | d :: _ => d.isDigit | [] => false))
      || lineDigitScan rest

/-- Model of `re.search(r'(Subway|Bus|Station|Line [0-9])', s, re.I)`. -/
def keywordScan (s : String) : Bool :=
  reAny ["subway", "bus", "station"] s || lineDigitScan (s.data.map Char.toLower)

/-! ### The document tree (BeautifulSoup model) -/

/-- The attributes the script reads from a tag: `id`, `class` (a list of
class strings, as BeautifulSoup exposes it) and `href`. -/
structure Attrs where
  idAttr : Option String := none
  classes : List String := []
  href : Option String := none
deriving DecidableEq

mutual
/-- A parsed HTML node: a `NavigableString` or a `Tag` with a name,
attributes and children. -/
inductive Node : Type where
  | text : String → Node
  | elem : String → Attrs → NodeList → Node
deriving DecidableEq

/-- A list of sibling nodes (children of a tag, in document order). -/
inductive NodeList : Type where
  | nil : NodeList
  | cons : Node → NodeList → NodeList
deriving DecidableEq
end

/-- Convert a Lean list of nodes into a sibling list (notation helper). -/
def nl : List Node → NodeList := fun l => l.foldr NodeList.cons NodeList.nil

/-- Build an element with classes only. -/
def el (tag : String) (cls : List String) (ch : List Node) : Node :=
  .elem tag { classes := cls } (nl ch)

/-- Build an element with an `id` attribute. -/
def elId (tag : String) (idv : String) (ch : List Node) : Node :=
  .elem tag { idAttr := some idv } (nl ch)

/-- Build an anchor with an `href` attribute. -/
def aHref (href : String) (cls : List String) (ch : List Node) : Node :=
  .elem "a" { classes := cls, href := some href } (nl ch)

/-- Build a text node. -/
def txt (s : String) : Node := .text s

/-- The tag name of a node ("" for a text node). -/
def Node.tagOf : Node → String
  | .text _ => ""
  | .elem t _ _ => t

/-- The children of a node (empty for a text node). -/
def Node.childrenL : Node → NodeList
  | .text _ => .nil
  | .elem _ _ ch => ch

/-- The `href` attribute of a node, when present (`tag['href']`). -/
def Node.hrefAttr : Node → Option String
  | .text _ => none
  | .elem _ a _ => a.href

/-- Model of BeautifulSoup's `tag.string`: a text node is its own string;
a tag with exactly one child takes that child's string; otherwise none. -/
def Node.stringOf : Node → Option String
  | .text s => some s
  | .elem _ _ (.cons c .nil) => Node.stringOf c
  | .elem _ _ _ => none

mutual
/-- First node of this subtree (root included, preorder) satisfying `p`:
the searching core of `soup.find(...)`. -/
def findN (p : Node → Bool) : Node → Option Node
  | .text _ => none
  | .elem t a ch =>
      if p (.elem t a ch) then some (.elem t a ch) else findL p ch

/-- First node under any node of the sibling list (preorder) satisfying
`p`: the searching core of `tag.find(...)` (descendants only). -/
def findL (p : Node → Bool) : NodeList → Option Node
  | .nil => none
  | .cons n ns =>
      match findN p n with
      | some r => some r
      | none => findL p ns
end

mutual
/-- All nodes of this subtree (root included, preorder) satisfying `p`:
the searching core of `soup.find_all(...)`. -/
def findAllN (p : Node → Bool) : Node → List Node
  | .text _ => []
  | .elem t a ch =>
      (if p (.elem t a ch) then [Node.elem t a ch] else []) ++ findAllL p ch

/-- All matching nodes under a sibling list, in document order. -/
def findAllL (p : Node → Bool) : NodeList → List Node
  | .nil => []
  | .cons n ns => findAllN p n ++ findAllL p ns
end

/-- Direct children with the given tag name:
`tag.find_all(name, recursive=False)`. -/
def directTag (t : String) : NodeList → List Node
  | .nil => []
  | .cons n ns =>
      (if n.tagOf == t then [n] else []) ++ directTag t ns

mutual
/-- The text descendants of a node, in document order. -/
def textsN : Node → List String
  | .text s => [s]
  | .elem _ _ ch => textsL ch

/-- The text descendants under a sibling list. -/
def textsL : NodeList → List String
  | .nil => []
  | .cons n ns => textsN n ++ textsL ns
end

/-- Model of `tag.get_text(separator=sep, strip=True)`: every text
descendant is stripped, empty results are skipped, the rest are joined
with the separator. -/
def getText (sep : String) (n : Node) : String :=
  String.intercalate sep (((textsN n).map pyStrip).filter fun s => !(s == ""))

/-- First element (non-text) node of a sibling list: the result of a
no-argument `find_next_sibling()`, which skips `NavigableString`s. -/
def firstElem : NodeList → Option Node
  | .nil => none
  | .cons (.text _) ns => firstElem ns
  | .cons n _ => some n

/-- Whether a node's class attribute matches the regex alternation
`pats` (BeautifulSoup matches a class regex against each class). -/
def classAny (pats : List String) : Node → Bool
  | .text _ => false
  | .elem _ a _ => a.classes.any fun c => reAny pats c

/-- Whether `tag.string` matches the regex alternation `pats` (the
`string=re.compile(...)` argument of `find`). -/
def stringMatches (pats : List String) (n : Node) : Bool :=
  match n.stringOf with
  | some s => reAny pats s
  | none => false

/-! ### Detail-page extraction (`scrape_details`, lines 9-79) -/

/-- The description-container predicate of line 25:
`detail_soup.find('div', class_=re.compile(r'cont-in-box|content|desc|summary|article', re.I))`. -/
def descMatch (n : Node) : Bool :=
  n.tagOf == "div" && classAny ["cont-in-box", "content", "desc", "summary", "article"] n

/-- Whether a node is a `script` or `style` tag (line 28). -/
def isScriptStyle (n : Node) : Bool :=
  n.tagOf == "script" || n.tagOf == "style"

mutual
/-- Remove every `script`/`style` descendant subtree: the effect of the
`unwanted_tag.extract()` loop of lines 28-29 on the found area. -/
def stripScriptsN : Node → Node
  | .text s => .text s
  | .elem t a ch => .elem t a (stripScriptsL ch)

/-- `stripScriptsN` over a sibling list. -/
def stripScriptsL : NodeList → NodeList
  | .nil => .nil
  | .cons n ns =>
      if isScriptStyle n then stripScriptsL ns
      else .cons (stripScriptsN n) (stripScriptsL ns)
end

mutual
/-- The find-and-mutate step of lines 25-29: locate the first (preorder)
description container and strip its `script`/`style` descendants in
place.  Returns the document after the mutation together with the
mutated container (`desc_area`) when one was found. -/
def cleanN : Node → Node × Option Node
  | .text s => (.text s, none)
  | .elem t a ch =>
      if descMatch (.elem t a ch) then
        (stripScriptsN (.elem t a ch), some (stripScriptsN (.elem t a ch)))
      else
        let r := cleanL ch
        (.elem t a r.1, r.2)

/-- `cleanN` over a sibling list: only the first match is mutated. -/
def cleanL : NodeList → NodeList × Option Node
  | .nil => (.nil, none)
  | .cons n ns =>
      let r := cleanN n
      match r.2 with
      | some a => (.cons r.1 ns, some a)
      | none =>
          let rs := cleanL ns
          (.cons n rs.1, rs.2)
end

/-- The `main`-element predicate of line 33 (`detail_soup.find('main')`). -/
def isMain (n : Node) : Bool := n.tagOf == "main"

/-- The `div#content` predicate of line 33
(`detail_soup.find('div', id='content')`). -/
def isDivContent (n : Node) : Bool :=
  match n with
  | .elem t a _ => t == "div" && a.idAttr == some "content"
  | .text _ => false

/-- The paragraph predicate (`main_content.find('p')`, line 35). -/
def isP (n : Node) : Bool := n.tagOf == "p"

/-- The description fallback of lines 32-35, reached when no container
matched: the first paragraph of `main` (or `div#content`), else the
inner placeholder; the initial value "Description not found" of line 12
survives when no main-content region exists either. -/
def mainFallback (doc : Node) : String :=
  match (findN isMain doc).orElse fun _ => findN isDivContent doc with
  | some m =>
      match findL isP m.childrenL with
      | some p => getText "" p
      | none => "Main content found, but no <p> tag."
  | none => "Description not found"

/-- The transport heading predicate of line 42:
`find(['h2','h3','h4'], string=re.compile(r'Transportation|Getting Here|Directions|Access', re.I))`. -/
def isTransportHeading (n : Node) : Bool :=
  (n.tagOf == "h2" || n.tagOf == "h3" || n.tagOf == "h4")
    && stringMatches ["transportation", "getting here", "directions", "access"] n

/-- What the transport branch of lines 43-59 reads off the found heading:
the heading itself, its next sibling element (`find_next_sibling()`), and
its parent's next sibling element (`find_parent().find_next_sibling()`). -/
structure HeadInfo where
  heading : Node
  nextSib : Option Node
  parentNext : Option Node
deriving DecidableEq

mutual
/-- Preorder search for the first transport heading, carrying the next
sibling element of the node under inspection (`sibNext`) and of its
parent (`pNext`). -/
def findHeadN (sibNext pNext : Option Node) : Node → Option HeadInfo
  | .text _ => none
  | .elem t a ch =>
      if isTransportHeading (.elem t a ch) then some ⟨.elem t a ch, sibNext, pNext⟩
      else findHeadL sibNext ch

/-- `findHeadN` over a sibling list whose parent's next sibling element
is `parentNext`. -/
def findHeadL (parentNext : Option Node) : NodeList → Option HeadInfo
  | .nil => none
  | .cons c cs =>
      match findHeadN (firstElem cs) parentNext c with
      | some hi => some hi
      | none => findHeadL parentNext cs
end

/-- The content-bearing tag names of line 49. -/
def contentTags : List String := ["div", "p", "ul", "section"]

/-- The quoted heading text of the diagnostic strings
(`transport_heading.string.strip()` between apostrophes). -/
def headingLabel (hi : HeadInfo) : String :=
  "'" ++ pyStrip ((Node.stringOf hi.heading).getD "") ++ "'"

/-- Lines 46-59: what the script stores once a transport heading was
found.  The next sibling's text if that sibling is content-bearing; a
"structure unclear" diagnostic if it exists but is not; the parent's
next sibling's text when there is no sibling at all; and a "couldn't
find subsequent content" diagnostic when that also fails. -/
def transportFromHeading (hi : HeadInfo) : String :=
  match hi.nextSib with
  | some ne =>
      if contentTags.contains ne.tagOf then getText "\n" ne
      else "Found heading " ++ headingLabel hi ++ ", but next sibling structure unclear."
  | none =>
      match hi.parentNext with
      | some pn => getText "\n" pn
      | none => "Found heading " ++ headingLabel hi ++ ", but couldn't find subsequent content."

/-- Lines 42-64: the transport field extracted from a (possibly already
mutated) detail document. -/
def transportOf (doc : Node) : String :=
  match findHeadN none none doc with
  | some hi => transportFromHeading hi
  | none =>
      if keywordScan (getText " " doc) then
        "Found transport keywords, but couldn't isolate section."
      else "Transportation info not found"

/-- The truncation marker appended at line 77. -/
def truncMarker : String := "... (truncated)"

/-- Lines 76-79 for the description: truncate past 300 characters to the
stripped 300-character prefix plus the marker, then the final
`description.strip()` of the return statement. -/
def truncateDesc (d : String) : String :=
  pyStrip (if 300 < d.length then pyStrip (pyTake 300 d) ++ truncMarker else d)

/-- The whole parse-and-extract body of `scrape_details` (lines 18-79)
on an already parsed document: the returned description and transport,
and the document as left behind by the `extract()` mutation. -/
structure DetailOut where
  description : String
  transport : String
  doc : Node
deriving DecidableEq

/-- The raw description of lines 20-35, before the truncation of lines
76-77: the text of the mutated container when one matched, else the
main-content fallback on the (then unmutated) document. -/
def rawDescription (doc : Node) : String :=
  match (cleanN doc).2 with
  | some area => getText "\n" area
  | none => mainFallback (cleanN doc).1

/-- Extraction of lines 20-79 on a parsed detail document. -/
def scrapeParse (doc : Node) : DetailOut :=
  ⟨truncateDesc (rawDescription doc), pyStrip (transportOf (cleanN doc).1), (cleanN doc).1⟩

/-! ### The network model and `scrape_details` -/

/-- Outcome of `session.get` + `raise_for_status` + parse for a detail
page: a parsed document, or a `requests.exceptions.RequestException`
whose message is the string `e` (any transport error or non-2xx
status). -/
inductive DetailFetch where
  | ok : Node → DetailFetch
  | err : String → DetailFetch
deriving DecidableEq

/-- Outcome of fetching a list page.  `ok doc procExc` is a successful
fetch and parse of `doc`; `procExc = true` marks a run in which an
unexpected non-fetch exception is raised while the page is processed
(the `except Exception` handler of lines 207-222). -/
inductive ListFetch where
  | fetchErr : String → ListFetch
  | ok : Node → Bool → ListFetch
deriving DecidableEq

/-- The external world of one run: what each URL returns when fetched as
a list page or as a detail page. -/
structure World where
  listPages : String → ListFetch
  detailPages : String → DetailFetch

/-- Model of `urllib.parse.urljoin(base, href)` for the shapes this
program exercises: an origin-only base, and hrefs that are either
already absolute or root/bare relative paths (`urljoin` is external
standard-library code; only its output's use is under test here). -/
def urljoin (base rel : String) : String :=
  if pyStartsWith "http://" rel || pyStartsWith "https://" rel then rel
  else if pyStartsWith "/" rel then base ++ rel
  else base ++ "/" ++ rel

/-- Line 82: the configured site base origin. -/
def BASE_URL : String := "https://english.visitseoul.net"

/-- Line 83: the start URL. -/
def START_URL : String := urljoin BASE_URL "/attractions"

/-- The full `scrape_details(detail_url, session)` of lines 9-79: on a
fetch failure both fields are the diagnostic string embedding the cause
(lines 66-69); either way the description is truncated and both fields
stripped (lines 75-79). -/
def scrape_details (w : World) (url : String) : String × String :=
  match w.detailPages url with
  | .ok doc =>
      let o := scrapeParse doc
      (o.description, o.transport)
  | .err e =>
      ("Error fetching page: " ++ e |> truncateDesc,
       "Error fetching page: " ++ e |> pyStrip)

/-! ### List-page extraction (lines 112-201) -/

/-- Line 117, first alternative:
`soup.find('div', {'class': re.compile(r'list-container|items-wrap|attraction-items', re.I)})`. -/
def isListContainerDiv (n : Node) : Bool :=
  n.tagOf == "div" && classAny ["list-container", "items-wrap", "attraction-items"] n

/-- Line 117, second alternative:
`soup.find('ul', {'class': re.compile(r'card-list|item-list', re.I)})`. -/
def isListContainerUl (n : Node) : Bool :=
  n.tagOf == "ul" && classAny ["card-list", "item-list"] n

/-- Line 117: the item-list container, when one is found. -/
def containerOf (doc : Node) : Option Node :=
  (findN isListContainerDiv doc).orElse fun _ => findN isListContainerUl doc

/-- Line 123, first fallback: `soup.find_all('li', {'class': re.compile(r'item|card', re.I)})`. -/
def isLiItemCard (n : Node) : Bool :=
  n.tagOf == "li" && classAny ["item", "card"] n

/-- Line 123, second fallback: `soup.find_all('div', {'class': re.compile(r'card|list-item', re.I)})`. -/
def isDivCardListItem (n : Node) : Bool :=
  n.tagOf == "div" && classAny ["card", "list-item"] n

/-- Lines 117-127: the candidate attraction items of a list page.  With
a container: its direct `li` children, else its direct `div` children.
Without: the site-wide `li` matches, else the site-wide `div` matches
(Python `or` takes the second operand only on an empty first list). -/
def collectItems (doc : Node) : List Node :=
  match containerOf doc with
  | some c =>
      let lis := directTag "li" c.childrenL
      if lis.isEmpty then directTag "div" c.childrenL else lis
  | none =>
      let lis := findAllN isLiItemCard doc
      if lis.isEmpty then findAllN isDivCardListItem doc else lis

/-- Item name predicates of lines 143-145. -/
def isH3 (n : Node) : Bool := n.tagOf == "h3"

/-- Line 143: `item.find('strong', class_=re.compile(r'title|name', re.I))`. -/
def isStrongTitle (n : Node) : Bool :=
  n.tagOf == "strong" && classAny ["title", "name"] n

/-- Line 145: `item.find('a')`. -/
def isAnchor (n : Node) : Bool := n.tagOf == "a"

/-- Lines 140-148: the item's name via the fallback chain
`h3` → `strong.title|name` → any `a`, else "Name not found". -/
def extractName (item : Node) : String :=
  match ((findL isH3 item.childrenL).orElse fun _ => findL isStrongTitle item.childrenL).orElse
      fun _ => findL isAnchor item.childrenL with
  | some t => getText "" t
  | none => "Name not found"

/-- Line 151: `item.find('a', href=True)`. -/
def isAnchorHref (n : Node) : Bool := n.tagOf == "a" && n.hrefAttr.isSome

/-- Lines 141 and 151-154: the item's link, made absolute against the
base origin, absent when the item has no anchor with an `href`. -/
def extractLink (item : Node) : Option String :=
  ((findL isAnchorHref item.childrenL).bind Node.hrefAttr).map (urljoin BASE_URL)

/-- Line 186: `soup.find('div', class_=re.compile(r'pagination|paging', re.I))`. -/
def isPaginationDiv (n : Node) : Bool :=
  n.tagOf == "div" && classAny ["pagination", "paging"] n

/-- Line 188 / line 213: `find('a', string=re.compile(r'Next', re.I))`. -/
def isNextAnchor (n : Node) : Bool :=
  n.tagOf == "a" && stringMatches ["next"] n

/-- Line 190: `find('a', {'class': re.compile(r'next|forward', re.I)})`. -/
def isNextClassAnchor (n : Node) : Bool :=
  n.tagOf == "a" && classAny ["next", "forward"] n

/-- Line 193: `soup.find('a', string=re.compile(r'Next', re.I), class_=re.compile(r'btn|page', re.I))`. -/
def isNextBtnAnchor (n : Node) : Bool :=
  n.tagOf == "a" && stringMatches ["next"] n && classAny ["btn", "page"] n

/-- Lines 183-193: the `Next` anchor of the pagination fallback chain. -/
def findNextTag (doc : Node) : Option Node :=
  let fromPag :=
    match findN isPaginationDiv doc with
    | some pa => (findL isNextAnchor pa.childrenL).orElse fun _ => findL isNextClassAnchor pa.childrenL
    | none => none
  fromPag.orElse fun _ => findN isNextBtnAnchor doc

/-- Lines 195-201: the next list-page URL, absent when no `Next` anchor
with an `href` attribute was found. -/
def nextPageUrl (doc : Node) : Option String :=
  ((findNextTag doc).bind Node.hrefAttr).map (urljoin BASE_URL)

/-- Lines 212-222: the simplified next-page search run by the generic
exception handler on the same parsed document. -/
def simplifiedNext (doc : Node) : Option String :=
  ((findN isNextAnchor doc).bind Node.hrefAttr).map (urljoin BASE_URL)

/-! ### The crawl loop (lines 92-222) -/

/-- One stored output record (lines 166-172). -/
structure Record where
  page : Nat
  name : String
  link : String
  description : String
  transport : String
deriving DecidableEq

/-- Observable actions of a run, in order: list fetches, detail fetches,
and the `time.sleep(1.5)` pauses of line 180. -/
inductive Event where
  | fetchList : String → Event
  | fetchDetail : String → Event
  | sleep : Event
deriving DecidableEq

/-- The list-page URLs fetched, in order, of an event trace. -/
def listUrls (evs : List Event) : List String :=
  evs.filterMap fun e => match e with | .fetchList u => some u | _ => none

/-- The detail-page URLs fetched, in order, of an event trace. -/
def detailUrls (evs : List Event) : List String :=
  evs.filterMap fun e => match e with | .fetchDetail u => some u | _ => none

/-- Lines 135-180, one iteration of the item loop: extract name and
link; when the link is present and on-origin, fetch and extract the
detail page and store a record; always pause afterwards (line 180 runs
for every item of the loop body). -/
def processItem (w : World) (pc : Nat) (item : Node) : Option Record × List Event :=
  let name := extractName item
  match extractLink item with
  | some link =>
      if pyStartsWith BASE_URL link then
        let dt := scrape_details w link
        (some ⟨pc, name, link, dt.1, dt.2⟩, [Event.fetchDetail link, Event.sleep])
      else (none, [Event.sleep])
  | none => (none, [Event.sleep])

/-- The item loop of lines 135-180 over a page's candidate items. -/
def processItems (w : World) (pc : Nat) : List Node → List Record × List Event
  | [] => ([], [])
  | it :: rest =>
      let r := processItem w pc it
      let rs := processItems w pc rest
      (r.1.toList ++ rs.1, r.2 ++ rs.2)

/-- What a finished (or stopped) run leaves behind: the accumulated
records (`all_attraction_data`), the event trace, and the final visited
set (`processed_urls`). -/
structure CrawlOut where
  records : List Record
  events : List Event
  visitedOut : List String
deriving DecidableEq

/-- The pagination `while` loop of lines 97-222, with explicit fuel (the
source loop is unbounded).  Per iteration: stop on a visited URL (lines
98-100); record the URL and fetch (lines 103-108); a fetch failure
breaks the loop (lines 203-206); an unexpected processing exception
falls back to the simplified next-page search (lines 207-222); otherwise
the items are processed and the next-page link followed (lines 112-201). -/
def crawl (w : World) : Nat → Option String → List String → Nat → CrawlOut
  | 0, _, visited, _ => ⟨[], [], visited⟩
  | _ + 1, none, visited, _ => ⟨[], [], visited⟩
  | fuel + 1, some url, visited, pc =>
      if url ∈ visited then ⟨[], [], visited⟩
      else
        match w.listPages url with
        | .fetchErr _ => ⟨[], [Event.fetchList url], url :: visited⟩
        | .ok doc procExc =>
            if procExc then
              let rest := crawl w fuel (simplifiedNext doc) (url :: visited) (pc + 1)
              ⟨rest.records, Event.fetchList url :: rest.events, rest.visitedOut⟩
            else
              let pr := processItems w (pc + 1) (collectItems doc)
              let rest := crawl w fuel (nextPageUrl doc) (url :: visited) (pc + 1)
              ⟨pr.1 ++ rest.records, Event.fetchList url :: (pr.2 ++ rest.events), rest.visitedOut⟩

/-- A whole run as the script performs it (lines 92-93: start at
`START_URL` with an empty visited set and page count 0). -/
def runScraper (w : World) (fuel : Nat) : CrawlOut :=
  crawl w fuel (some START_URL) [] 0

/-! ### Lemmas about the Python string model -/

theorem dropWhile_wsChar_head_not {l : List Char} {c : Char}
    (h : (l.dropWhile wsChar).head? = some c) : wsChar c = false := by
  have := List.head?_dropWhile_not wsChar l
  rw [h] at this
  simpa using this

theorem getLast?_of_suffix {α : Type} {l₁ l₂ : List α} (h : l₁ <:+ l₂) (hne : l₁ ≠ []) :
    l₂.getLast? = l₁.getLast? := by
  obtain ⟨t, rfl⟩ := h
  rw [List.getLast?_append]
  obtain ⟨c, hc⟩ := Option.isSome_iff_exists.mp (List.getLast?_isSome.mpr hne)
  simp [hc]

theorem getLast?_dropWhile_wsChar {l : List Char} (hne : l.dropWhile wsChar ≠ []) :
    (l.dropWhile wsChar).getLast? = l.getLast? :=
  (getLast?_of_suffix (List.dropWhile_suffix wsChar) hne).symm

theorem head?_pyStripL_not {l : List Char} {c : Char}
    (h : (pyStripL l).head? = some c) : wsChar c = false := by
  unfold pyStripL rstripL at h
  rw [List.head?_reverse] at h
  have hne : (l.dropWhile wsChar).reverse.dropWhile wsChar ≠ [] := by
    intro he
    rw [he] at h
    simp at h
  rw [getLast?_dropWhile_wsChar hne, List.getLast?_reverse] at h
  exact dropWhile_wsChar_head_not h

theorem getLast?_pyStripL_not {l : List Char} {c : Char}
    (h : (pyStripL l).getLast? = some c) : wsChar c = false := by
  unfold pyStripL rstripL at h
  rw [List.getLast?_reverse] at h
  exact dropWhile_wsChar_head_not h

theorem pyStripL_eq_self {l : List Char}
    (h1 : ∀ c, l.head? = some c → wsChar c = false)
    (h2 : ∀ c, l.getLast? = some c → wsChar c = false) : pyStripL l = l := by
  have hd : l.dropWhile wsChar = l := by
    cases l with
    | nil => rfl
    | cons c t =>
        have := h1 c rfl
        simp [List.dropWhile_cons, this]
  unfold pyStripL rstripL
  rw [hd]
  cases hr : l.reverse with
  | nil =>
      have : l = [] := by simpa using congrArg List.reverse hr
      simp [this]
  | cons c t =>
      have hc : l.getLast? = some c := by
        rw [← List.head?_reverse, hr]; rfl
      have := h2 c hc
      rw [List.dropWhile_cons_of_neg (by simp [this]), ← hr, List.reverse_reverse]

theorem pyStripL_append_marker {a m : List Char} (hm : m ≠ [])
    (hmh : ∀ c, m.head? = some c → wsChar c = false)
    (hml : ∀ c, m.getLast? = some c → wsChar c = false) :
    pyStripL (pyStripL a ++ m) = pyStripL a ++ m := by
  apply pyStripL_eq_self
  · intro c hc
    cases hx : pyStripL a with
    | nil => rw [hx] at hc; simp at hc; exact hmh c hc
    | cons x xs =>
        rw [hx] at hc
        simp at hc
        exact head?_pyStripL_not (l := a) (by rw [hx, hc.symm]; rfl)
  · intro c hc
    rw [List.getLast?_append] at hc
    obtain ⟨d, hd⟩ := Option.isSome_iff_exists.mp (List.getLast?_isSome.mpr hm)
    rw [hd] at hc
    simp at hc
    exact hml c (by rw [hd, hc])

theorem prefix_pyStripL {p l : List Char} (hp : p <+: l) (hne : p ≠ [])
    (hh : ∀ c, p.head? = some c → wsChar c = false)
    (hl : ∀ c, p.getLast? = some c → wsChar c = false) : p <+: pyStripL l := by
  obtain ⟨t, rfl⟩ := hp
  obtain ⟨c, cs, rfl⟩ : ∃ c cs, p = c :: cs := by
    cases p with
    | nil => exact absurd rfl hne
    | cons c cs => exact ⟨c, cs, rfl⟩
  have hcw : wsChar c = false := hh c rfl
  unfold pyStripL rstripL
  rw [List.cons_append, List.dropWhile_cons_of_neg (by simp [hcw]), ← List.cons_append,
      List.reverse_append, List.dropWhile_append]
  split
  · next hemp =>
      have hrd : (c :: cs).reverse.dropWhile wsChar = (c :: cs).reverse := by
        cases hr : (c :: cs).reverse with
        | nil => rfl
        | cons y ys =>
            have hy : (c :: cs).getLast? = some y := by
              rw [← List.head?_reverse, hr]; rfl
            rw [List.dropWhile_cons_of_neg (by simp [hl y hy])]
      rw [hrd, List.reverse_reverse]
  · next =>
      rw [List.reverse_append, List.reverse_reverse]
      exact List.prefix_append _ _

theorem truncMarker_head : ∀ c, truncMarker.data.head? = some c → wsChar c = false := by
  decide

theorem truncMarker_last : ∀ c, truncMarker.data.getLast? = some c → wsChar c = false := by
  decide

theorem truncateDesc_data_of_long {d : String} (h : 300 < d.length) :
    (truncateDesc d).data = pyStripL (d.data.take 300) ++ truncMarker.data := by
  have : truncateDesc d = pyStrip (pyStrip (pyTake 300 d) ++ truncMarker) := by
    simp [truncateDesc, h]
  rw [this]
  show pyStripL ((pyStrip (pyTake 300 d)).data ++ truncMarker.data) = _
  have hdat : (pyStrip (pyTake 300 d)).data = pyStripL (d.data.take 300) := rfl
  rw [hdat, pyStripL_append_marker (by decide) truncMarker_head truncMarker_last]

theorem truncateDesc_of_short {d : String} (h : d.length ≤ 300) :
    truncateDesc d = pyStrip d := by
  simp [truncateDesc, Nat.not_lt.mpr h]

theorem pyStartsWith_iff {p s : String} : pyStartsWith p s = true ↔ p.data <+: s.data := by
  simp [pyStartsWith]

theorem pyContains_of_prefix {p s : String} (h : p.data <+: s.data) :
    pyContains p s = true := by
  unfold pyContains
  cases hs : s.data with
  | nil =>
      rw [hs] at h
      have : p.data = [] := List.prefix_nil.mp h
      simp [containsL, this]
  | cons c cs =>
      rw [hs] at h
      simp [containsL]
      left
      exact h

/-! ### Lemmas about the `extract()` mutation -/

theorem descMatch_children (t : String) (a : Attrs) (ch ch' : NodeList) :
    descMatch (.elem t a ch) = descMatch (.elem t a ch') := by
  simp [descMatch, Node.tagOf, classAny]

theorem isScriptStyle_strip (n : Node) : isScriptStyle (stripScriptsN n) = isScriptStyle n := by
  cases n with
  | text s => rfl
  | elem t a ch => rfl

mutual
theorem stripScriptsN_idem : ∀ n : Node, stripScriptsN (stripScriptsN n) = stripScriptsN n
  | .text _ => rfl
  | .elem t a ch => by
      show Node.elem t a (stripScriptsL (stripScriptsL ch)) = Node.elem t a (stripScriptsL ch)
      rw [stripScriptsL_idem ch]

theorem stripScriptsL_idem : ∀ l : NodeList, stripScriptsL (stripScriptsL l) = stripScriptsL l
  | .nil => rfl
  | .cons n ns => by
      by_cases h : isScriptStyle n = true
      · have h1 : stripScriptsL (.cons n ns) = stripScriptsL ns := by
          simp [stripScriptsL, h]
        rw [h1, stripScriptsL_idem ns]
      · have h1 : stripScriptsL (.cons n ns) = .cons (stripScriptsN n) (stripScriptsL ns) := by
          simp [stripScriptsL, h]
        rw [h1]
        have h2 : isScriptStyle (stripScriptsN n) = false := by
          rw [isScriptStyle_strip]; exact Bool.not_eq_true _ ▸ eq_false_of_ne_true h
        have h3 : stripScriptsL (.cons (stripScriptsN n) (stripScriptsL ns))
            = .cons (stripScriptsN (stripScriptsN n)) (stripScriptsL (stripScriptsL ns)) := by
          simp [stripScriptsL, h2]
        rw [h3, stripScriptsN_idem n, stripScriptsL_idem ns]
end

mutual
theorem cleanN_idem : ∀ n : Node, cleanN (cleanN n).1 = cleanN n
  | .text _ => rfl
  | .elem t a ch => by
      by_cases h : descMatch (.elem t a ch) = true
      · have h1 : cleanN (Node.elem t a ch)
            = (stripScriptsN (Node.elem t a ch), some (stripScriptsN (Node.elem t a ch))) := by
          simp [cleanN, h]
        rw [h1]
        have h2 : descMatch (Node.elem t a (stripScriptsL ch)) = true := by
          rw [descMatch_children t a _ ch]; exact h
        have h3 : cleanN (Node.elem t a (stripScriptsL ch))
            = (stripScriptsN (Node.elem t a (stripScriptsL ch)),
               some (stripScriptsN (Node.elem t a (stripScriptsL ch)))) := by
          simp [cleanN, h2]
        have h4 : stripScriptsN (Node.elem t a (stripScriptsL ch))
            = stripScriptsN (Node.elem t a ch) := by
          show Node.elem t a (stripScriptsL (stripScriptsL ch)) = Node.elem t a (stripScriptsL ch)
          rw [stripScriptsL_idem ch]
        show cleanN (Node.elem t a (stripScriptsL ch)) = _
        rw [h3, h4]
      · have hf : descMatch (Node.elem t a ch) = false := eq_false_of_ne_true h
        have h1 : cleanN (Node.elem t a ch) = (Node.elem t a (cleanL ch).1, (cleanL ch).2) := by
          simp [cleanN, hf]
        rw [h1]
        have hf2 : descMatch (Node.elem t a (cleanL ch).1) = false := by
          rw [descMatch_children t a _ ch]; exact hf
        have h2 : cleanN (Node.elem t a (cleanL ch).1)
            = (Node.elem t a (cleanL (cleanL ch).1).1, (cleanL (cleanL ch).1).2) := by
          simp [cleanN, hf2]
        rw [h2, cleanL_idem ch]

theorem cleanL_idem : ∀ l : NodeList, cleanL (cleanL l).1 = cleanL l
  | .nil => rfl
  | .cons n ns => by
      cases hr : (cleanN n).2 with
      | some a =>
          have h1 : cleanL (.cons n ns) = (.cons (cleanN n).1 ns, some a) := by
            simp [cleanL, hr]
          rw [h1]
          have h2 := cleanN_idem n
          have h3 : (cleanN (cleanN n).1).2 = some a := by rw [h2, hr]
          have h4 : cleanL (.cons (cleanN n).1 ns)
              = (.cons (cleanN (cleanN n).1).1 ns, some a) := by
            simp [cleanL, h3]
          rw [h4, h2]
      | none =>
          have h1 : cleanL (.cons n ns) = (.cons n (cleanL ns).1, (cleanL ns).2) := by
            simp [cleanL, hr]
          rw [h1]
          have h2 : cleanL (.cons n (cleanL ns).1)
              = (.cons n (cleanL (cleanL ns).1).1, (cleanL (cleanL ns).1).2) := by
            simp [cleanL, hr]
          rw [h2, cleanL_idem ns]
end

mutual
theorem cleanN_none : ∀ n : Node, (cleanN n).2 = none → (cleanN n).1 = n
  | .text _ => fun _ => rfl
  | .elem t a ch => by
      intro h
      by_cases hd : descMatch (.elem t a ch) = true
      · have : (cleanN (Node.elem t a ch)).2
            = some (stripScriptsN (Node.elem t a ch)) := by simp [cleanN, hd]
        rw [this] at h
        exact absurd h (by simp)
      · have hf : descMatch (Node.elem t a ch) = false := eq_false_of_ne_true hd
        have h1 : cleanN (Node.elem t a ch) = (Node.elem t a (cleanL ch).1, (cleanL ch).2) := by
          simp [cleanN, hf]
        rw [h1] at h ⊢
        show Node.elem t a (cleanL ch).1 = Node.elem t a ch
        rw [cleanL_none ch h]

theorem cleanL_none : ∀ l : NodeList, (cleanL l).2 = none → (cleanL l).1 = l
  | .nil => fun _ => rfl
  | .cons n ns => by
      intro h
      cases hr : (cleanN n).2 with
      | some a =>
          have : (cleanL (.cons n ns)).2 = some a := by simp [cleanL, hr]
          rw [this] at h
          exact absurd h (by simp)
      | none =>
          have h1 : cleanL (.cons n ns) = (.cons n (cleanL ns).1, (cleanL ns).2) := by
            simp [cleanL, hr]
          rw [h1] at h ⊢
          show NodeList.cons n (cleanL ns).1 = NodeList.cons n ns
          rw [cleanL_none ns h]
end

/-! ### Further string bridge lemmas -/

theorem strData_append (s t : String) : (s ++ t).data = s.data ++ t.data := by
  cases s; cases t; rfl

theorem strLength_data (s : String) : s.length = s.data.length := by
  cases s; rfl

theorem prefix_truncateDesc {p d : String} (hp : p.data <+: d.data) (hne : p.data ≠ [])
    (hh : ∀ c, p.data.head? = some c → wsChar c = false)
    (hl : ∀ c, p.data.getLast? = some c → wsChar c = false)
    (hlen : p.data.length ≤ 300) :
    p.data <+: (truncateDesc d).data := by
  by_cases h : 300 < d.length
  · rw [truncateDesc_data_of_long h]
    have h1 : p.data <+: d.data.take 300 := List.prefix_take_iff.mpr ⟨hp, hlen⟩
    have h2 : p.data <+: pyStripL (d.data.take 300) := prefix_pyStripL h1 hne hh hl
    exact h2.trans (List.prefix_append _ _)
  · rw [truncateDesc_of_short (Nat.not_lt.mp h)]
    exact prefix_pyStripL hp hne hh hl

/-- The raw description string produced by `scrape_details` before the
truncation of lines 76-79: the extracted description of a fetched page,
or the diagnostic string of lines 66-68 on a fetch error. -/
def rawDetailDescription (w : World) (url : String) : String :=
  match w.detailPages url with
  | .ok doc => rawDescription doc
  | .err e => "Error fetching page: " ++ e

/-- A 301-character description input (no whitespace). -/
def longDescInput : String := String.mk (List.replicate 301 'a')

/-- A detail page whose description container text has 301 characters. -/
def C2doc : Node := el "html" [] [el "div" ["content"] [txt longDescInput]]

/-- A 302-character description whose 300th character is a space, so the
truncated slice loses a character to the strip. -/
def spacedDescInput : String := String.mk (List.replicate 299 'a' ++ [' ', 'b', 'b'])

/-- A detail page whose description container text is `spacedDescInput`. -/
def C2docB : Node := el "html" [] [el "div" ["content"] [txt spacedDescInput]]

/-! ### Claim theorems -/

/-- C9: detail extraction is idempotent and deterministic.  Applying the
parse-and-extract body of `scrape_details` a second time to the document
as left behind by the first application (which has removed the
`script`/`style` descendants of the description area in place) gives the
identical output, description, transport and document alike; being a
pure function of the document, the extraction has no other state. -/
theorem C9_extraction_idempotent (doc : Node) :
    scrapeParse ((scrapeParse doc).doc) = scrapeParse doc := by
  show scrapeParse (cleanN doc).1 = scrapeParse doc
  unfold scrapeParse rawDescription
  rw [cleanN_idem doc]

set_option maxRecDepth 8192 in
/-- C2 counterexample: a detail page whose description container holds a
301-character text is stored with length 315 (the stripped 300-character
prefix plus the 15-character marker "... (truncated)"), not 300 plus the
length of "(truncated)" (311) as the claim states; and on a long
description whose 300th character is whitespace the stored length is
314, so no fixed "300 plus a marker's length" holds at all. -/
theorem C2_counterexample :
    pyContains "(truncated)" (scrapeParse C2doc).description = true ∧
    (scrapeParse C2doc).description.length = 315 ∧
    ¬((scrapeParse C2doc).description.length = 300 + ("(truncated)" : String).length) ∧
    300 < spacedDescInput.length ∧
    (scrapeParse C2docB).description.length = 314 ∧
    ¬((scrapeParse C2docB).description.length = 300 + ("(truncated)" : String).length) ∧
    ¬((scrapeParse C2docB).description.length = 300 + truncMarker.length) := by
  refine ⟨by decide, by decide, by decide, by decide, by decide, by decide, by decide⟩

/-- C2 (amended): the truncation law of lines 76-79.  A description
longer than 300 characters is stored ending in the literal marker
"... (truncated)" with length equal to the length of the
whitespace-stripped 300-character prefix plus the marker's length (at
most 315); a description of at most 300 characters is stored as its
`strip()` (unmodified whenever it carries no surrounding whitespace, as
all extractor outputs do); and every stored description, of a fetched
page and of a fetch error alike, is exactly this truncation of the raw
extracted string. -/
theorem C2_truncation_law (d : String) :
    (300 < d.length →
      pyEndsWith truncMarker (truncateDesc d) = true ∧
      (truncateDesc d).length = (pyStrip (pyTake 300 d)).length + truncMarker.length)
    ∧ (d.length ≤ 300 → truncateDesc d = pyStrip d)
    ∧ (∀ w url, (scrape_details w url).1 = truncateDesc (rawDetailDescription w url)) := by
  refine ⟨fun h => ⟨?_, ?_⟩, fun h => truncateDesc_of_short h, fun w url => ?_⟩
  · simp only [pyEndsWith, List.isSuffixOf_iff_suffix]
    rw [truncateDesc_data_of_long h]
    exact List.suffix_append _ _
  · rw [strLength_data, truncateDesc_data_of_long h, List.length_append,
        strLength_data, strLength_data]
    rfl
  · cases hw : w.detailPages url with
    | ok doc => simp [scrape_details, hw, rawDetailDescription, scrapeParse]
    | err e => simp [scrape_details, hw, rawDetailDescription]

theorem errMarkerLeads (e : String) :
    ("Error fetching page:" : String).data <+: ("Error fetching page: " ++ e).data := by
  rw [strData_append]
  have h : ("Error fetching page: " : String).data
      = ("Error fetching page:" : String).data ++ [' '] := by decide
  rw [h, List.append_assoc]
  exact List.prefix_append _ _

theorem errMarker_head :
    ∀ c, ("Error fetching page:" : String).data.head? = some c → wsChar c = false := by
  intro c hc
  rw [show ("Error fetching page:" : String).data.head? = some 'E' from by decide] at hc
  injection hc with h
  subst h
  decide

theorem errMarker_last :
    ∀ c, ("Error fetching page:" : String).data.getLast? = some c → wsChar c = false := by
  intro c hc
  rw [show ("Error fetching page:" : String).data.getLast? = some ':' from by decide] at hc
  injection hc with h
  subst h
  decide

/-- C6 (amended): the description fallback chain of lines 25-35.  With
no matching description container, the stored description is the literal
placeholder "Description not found" only when neither a `main` element
nor a `div#content` exists; when a main-content region (the `find('main')
or find('div', id='content')` of line 33) is found, the stored
description is its first paragraph's text (truncated by lines 76-79),
and when that region holds no paragraph at all the stored value is the
distinct placeholder "Main content found, but no <p> tag.", not
"Description not found". -/
theorem C6_description_fallback (doc : Node) :
    ((cleanN doc).2 = none → findN isMain doc = none → findN isDivContent doc = none →
        (scrapeParse doc).description = "Description not found")
    ∧ (∀ m q, (cleanN doc).2 = none →
        ((findN isMain doc).orElse fun _ => findN isDivContent doc) = some m →
        findL isP m.childrenL = some q →
        (scrapeParse doc).description = truncateDesc (getText "" q))
    ∧ (∀ m, (cleanN doc).2 = none →
        ((findN isMain doc).orElse fun _ => findN isDivContent doc) = some m →
        findL isP m.childrenL = none →
        (scrapeParse doc).description
          = "Main content found, but no <p> tag.") := by
  refine ⟨fun h hm hd => ?_, fun m q h hm hp => ?_, fun m h hm hp => ?_⟩
  · show truncateDesc (rawDescription doc) = _
    rw [show rawDescription doc = mainFallback (cleanN doc).1 from by
      simp [rawDescription, h]]
    rw [cleanN_none doc h]
    rw [show mainFallback doc = "Description not found" from by
      simp [mainFallback, hm, hd, Option.orElse]]
    decide
  · show truncateDesc (rawDescription doc) = _
    rw [show rawDescription doc = mainFallback (cleanN doc).1 from by
      simp [rawDescription, h]]
    rw [cleanN_none doc h]
    rw [show mainFallback doc = getText "" q from by
      simp only [mainFallback, hm, hp]]
  · show truncateDesc (rawDescription doc) = _
    rw [show rawDescription doc = mainFallback (cleanN doc).1 from by
      simp [rawDescription, h]]
    rw [cleanN_none doc h]
    rw [show mainFallback doc = "Main content found, but no <p> tag." from by
      simp only [mainFallback, hm, hp]]
    decide

/-- C7 (amended): the transport heading heuristic of lines 42-59.  Once
a heading is found, a content-bearing next sibling element supplies the
text; a next sibling element that is not content-bearing yields the
"next sibling structure unclear" diagnostic directly (the parent's next
sibling is NOT consulted in that case); the parent's next sibling is
attempted only when the heading has no following sibling element; and
the "couldn't find subsequent content" diagnostic is emitted only when
both are absent. -/
theorem C7_transport_heading (doc : Node) (hi : HeadInfo)
    (h : findHeadN none none doc = some hi) :
    transportOf doc = transportFromHeading hi
    ∧ (∀ ne, hi.nextSib = some ne → contentTags.contains ne.tagOf = true →
        transportFromHeading hi = getText "\n" ne)
    ∧ (∀ ne, hi.nextSib = some ne → contentTags.contains ne.tagOf = false →
        transportFromHeading hi
          = "Found heading " ++ headingLabel hi ++ ", but next sibling structure unclear.")
    ∧ (hi.nextSib = none → ∀ pn, hi.parentNext = some pn →
        transportFromHeading hi = getText "\n" pn)
    ∧ (hi.nextSib = none → hi.parentNext = none →
        transportFromHeading hi
          = "Found heading " ++ headingLabel hi ++ ", but couldn't find subsequent content.") := by
  refine ⟨by simp [transportOf, h], fun ne h1 h2 => ?_, fun ne h1 h2 => ?_,
    fun h1 pn h2 => ?_, fun h1 h2 => ?_⟩
  · simp only [transportFromHeading, h1]
    rw [if_pos h2]
  · simp only [transportFromHeading, h1]
    rw [if_neg (by rw [h2]; exact Bool.false_ne_true)]
  · simp [transportFromHeading, h1, h2]
  · simp [transportFromHeading, h1, h2]

/-- C8 (amended): the politeness pause of line 180 stands in the item
loop outside the link check of lines 160-176, so it runs after every
item, those whose detail fetch was attempted and those skipped for a
missing or off-origin link alike: every item's event trace ends with the
pause. -/
theorem C8_pause_every_item (w : World) (pc : Nat) (it : Node) :
    ((processItem w pc it).2).getLast? = some Event.sleep := by
  cases h : extractLink it with
  | none => simp [processItem, h]
  | some l =>
      by_cases h2 : pyStartsWith BASE_URL l = true
      · simp [processItem, h, h2]
      · simp [processItem, h, h2]

/-- C10: item candidate selection of lines 117-127.  When a container is
found, its direct `li` children are taken whenever at least one exists,
and its direct `div` children only otherwise; without a container the
site-wide `li` matches are taken whenever any exist, the site-wide `div`
matches only otherwise. -/
theorem C10_item_collection (doc : Node) :
    (∀ c, containerOf doc = some c →
        (directTag "li" c.childrenL ≠ [] → collectItems doc = directTag "li" c.childrenL)
        ∧ (directTag "li" c.childrenL = [] → collectItems doc = directTag "div" c.childrenL))
    ∧ (containerOf doc = none →
        (findAllN isLiItemCard doc ≠ [] → collectItems doc = findAllN isLiItemCard doc)
        ∧ (findAllN isLiItemCard doc = [] →
            collectItems doc = findAllN isDivCardListItem doc)) := by
  constructor
  · intro c hc
    constructor
    · intro h
      simp [collectItems, hc, List.isEmpty_iff, h]
    · intro h
      simp [collectItems, hc, List.isEmpty_iff, h]
  · intro hc
    constructor
    · intro h
      simp [collectItems, hc, List.isEmpty_iff, h]
    · intro h
      simp [collectItems, hc, List.isEmpty_iff, h]

/-! ### Crawl-loop lemmas -/

theorem crawl_none (w : World) (fuel : Nat) (visited : List String) (pc : Nat) :
    crawl w fuel none visited pc = ⟨[], [], visited⟩ := by
  cases fuel with
  | zero => rfl
  | succ f => rfl

theorem crawl_visited (w : World) (fuel : Nat) (url : String) (visited : List String)
    (pc : Nat) (h : url ∈ visited) :
    crawl w fuel (some url) visited pc = ⟨[], [], visited⟩ := by
  cases fuel with
  | zero => rfl
  | succ f => simp [crawl, h]

theorem crawl_fetchErr (w : World) (f : Nat) (url : String) (visited : List String)
    (pc : Nat) (e : String) (hv : url ∉ visited) (hw : w.listPages url = .fetchErr e) :
    crawl w (f + 1) (some url) visited pc = ⟨[], [Event.fetchList url], url :: visited⟩ := by
  simp [crawl, hv, hw]

theorem crawl_ok_true (w : World) (f : Nat) (url : String) (visited : List String)
    (pc : Nat) (doc : Node) (hv : url ∉ visited) (hw : w.listPages url = .ok doc true) :
    crawl w (f + 1) (some url) visited pc
      = ⟨(crawl w f (simplifiedNext doc) (url :: visited) (pc + 1)).records,
         Event.fetchList url
           :: (crawl w f (simplifiedNext doc) (url :: visited) (pc + 1)).events,
         (crawl w f (simplifiedNext doc) (url :: visited) (pc + 1)).visitedOut⟩ := by
  simp [crawl, hv, hw]

theorem crawl_ok_false (w : World) (f : Nat) (url : String) (visited : List String)
    (pc : Nat) (doc : Node) (hv : url ∉ visited) (hw : w.listPages url = .ok doc false) :
    crawl w (f + 1) (some url) visited pc
      = ⟨(processItems w (pc + 1) (collectItems doc)).1
           ++ (crawl w f (nextPageUrl doc) (url :: visited) (pc + 1)).records,
         Event.fetchList url
           :: ((processItems w (pc + 1) (collectItems doc)).2
               ++ (crawl w f (nextPageUrl doc) (url :: visited) (pc + 1)).events),
         (crawl w f (nextPageUrl doc) (url :: visited) (pc + 1)).visitedOut⟩ := by
  simp [crawl, hv, hw]

theorem listUrls_append (a b : List Event) : listUrls (a ++ b) = listUrls a ++ listUrls b :=
  List.filterMap_append a b _

theorem listUrls_fetchList_cons (url : String) (evs : List Event) :
    listUrls (Event.fetchList url :: evs) = url :: listUrls evs := by
  simp [listUrls]

theorem listUrls_processItem (w : World) (pc : Nat) (it : Node) :
    listUrls (processItem w pc it).2 = [] := by
  cases h : extractLink it with
  | none => simp [processItem, h, listUrls]
  | some l =>
      by_cases h2 : pyStartsWith BASE_URL l = true
      · simp [processItem, h, h2, listUrls]
      · simp [processItem, h, h2, listUrls]

theorem listUrls_processItems (w : World) (pc : Nat) (items : List Node) :
    listUrls (processItems w pc items).2 = [] := by
  induction items with
  | nil => rfl
  | cons it rest ih =>
      show listUrls ((processItem w pc it).2 ++ (processItems w pc rest).2) = []
      rw [listUrls_append, listUrls_processItem, ih]
      rfl

theorem listUrls_page_events (w : World) (pc : Nat) (items : List Node) (url : String)
    (evs : List Event) :
    listUrls (Event.fetchList url :: ((processItems w pc items).2 ++ evs))
      = url :: listUrls evs := by
  rw [listUrls_fetchList_cons, listUrls_append, listUrls_processItems]
  rfl

theorem processItems_link_onOrigin (w : World) (pc : Nat) (items : List Node) :
    ∀ r ∈ (processItems w pc items).1, pyStartsWith BASE_URL r.link = true := by
  induction items with
  | nil =>
      intro r hr
      simp [processItems] at hr
  | cons it rest ih =>
      intro r hr
      have hr' : r ∈ (processItem w pc it).1.toList ++ (processItems w pc rest).1 := hr
      rcases List.mem_append.mp hr' with h1 | h1
      · cases hL : extractLink it with
        | none => simp [processItem, hL] at h1
        | some l =>
            by_cases h2 : pyStartsWith BASE_URL l = true
            · simp [processItem, hL, h2] at h1
              rw [h1]
              exact h2
            · simp [processItem, hL, h2] at h1
      · exact ih r h1

/-- C1: every record accumulated by the crawl loop, from any starting
point, has a link beginning with the configured base origin: the guard
of line 160 admits only such links, and items with a missing or
off-origin link never append a record. -/
theorem C1_links_on_origin (w : World) (fuel : Nat) (cur : Option String)
    (visited : List String) (pc : Nat) :
    ∀ r ∈ (crawl w fuel cur visited pc).records, pyStartsWith BASE_URL r.link = true := by
  induction fuel generalizing cur visited pc with
  | zero =>
      intro r hr
      simp [crawl] at hr
  | succ f ih =>
      cases cur with
      | none =>
          intro r hr
          rw [crawl_none] at hr
          simp at hr
      | some url =>
          by_cases hv : url ∈ visited
          · intro r hr
            rw [crawl_visited w (f + 1) url visited pc hv] at hr
            simp at hr
          · cases hw : w.listPages url with
            | fetchErr e =>
                intro r hr
                rw [crawl_fetchErr w f url visited pc e hv hw] at hr
                simp at hr
            | ok doc procExc =>
                cases procExc with
                | true =>
                    intro r hr
                    rw [crawl_ok_true w f url visited pc doc hv hw] at hr
                    exact ih _ _ _ r hr
                | false =>
                    intro r hr
                    rw [crawl_ok_false w f url visited pc doc hv hw] at hr
                    rcases List.mem_append.mp hr with h1 | h1
                    · exact processItems_link_onOrigin w (pc + 1) (collectItems doc) r h1
                    · exact ih _ _ _ r h1

/-- C5: the two list-page failure modes of lines 203-222.  A fetch error
on a list page ends the run at once: the only event is that single list
fetch, no record is produced, and nothing is retried.  A non-fetch
processing exception instead hands control to the simplified next-page
search on the same document: the run continues exactly as a fresh loop
iteration on that search's result, and when the search yields no anchor
with an href the run ends with that page as the last fetch. -/
theorem C5_list_page_failures (w : World) (fuel : Nat) (url : String)
    (visited : List String) (pc : Nat) (hv : url ∉ visited) :
    (∀ e, w.listPages url = .fetchErr e →
        crawl w (fuel + 1) (some url) visited pc
          = ⟨[], [Event.fetchList url], url :: visited⟩)
    ∧ (∀ doc, w.listPages url = .ok doc true →
        crawl w (fuel + 1) (some url) visited pc
          = ⟨(crawl w fuel (simplifiedNext doc) (url :: visited) (pc + 1)).records,
             Event.fetchList url
               :: (crawl w fuel (simplifiedNext doc) (url :: visited) (pc + 1)).events,
             (crawl w fuel (simplifiedNext doc) (url :: visited) (pc + 1)).visitedOut⟩)
    ∧ (∀ doc, w.listPages url = .ok doc true → simplifiedNext doc = none →
        crawl w (fuel + 1) (some url) visited pc
          = ⟨[], [Event.fetchList url], url :: visited⟩) := by
  refine ⟨fun e h => crawl_fetchErr w fuel url visited pc e hv h,
    fun doc h => crawl_ok_true w fuel url visited pc doc hv h,
    fun doc h hn => ?_⟩
  rw [crawl_ok_true w fuel url visited pc doc hv h, hn, crawl_none]

/-- C4: loop prevention over the visited set.  Re-encountering a visited
URL stops the loop at once, fetching nothing and producing nothing; no
list-page URL is fetched twice in a run (the fetched URLs are distinct
and never lie in the initial visited set); and the visited set only
grows. -/
theorem C4_visited_set (w : World) (fuel : Nat) (cur : Option String)
    (visited : List String) (pc : Nat) :
    (∀ url, url ∈ visited → crawl w fuel (some url) visited pc = ⟨[], [], visited⟩)
    ∧ (listUrls (crawl w fuel cur visited pc).events).Nodup
    ∧ (∀ u ∈ listUrls (crawl w fuel cur visited pc).events, u ∉ visited)
    ∧ visited ⊆ (crawl w fuel cur visited pc).visitedOut := by
  refine ⟨fun url h => crawl_visited w fuel url visited pc h, ?_⟩
  induction fuel generalizing cur visited pc with
  | zero => simp [crawl, listUrls]
  | succ f ih =>
      cases cur with
      | none => simp [crawl_none, listUrls]
      | some url =>
          by_cases hv : url ∈ visited
          · simp [crawl_visited w (f + 1) url visited pc hv, listUrls]
          · cases hw : w.listPages url with
            | fetchErr e =>
                rw [crawl_fetchErr w f url visited pc e hv hw]
                refine ⟨by simp [listUrls], ?_, ?_⟩
                · intro u hu
                  show u ∉ visited
                  have : u ∈ listUrls [Event.fetchList url] := hu
                  simp [listUrls] at this
                  rw [this]
                  exact hv
                · exact List.subset_cons_self url visited
            | ok doc procExc =>
                cases procExc with
                | true =>
                    obtain ⟨ihn, ihf, ihs⟩ := ih (simplifiedNext doc) (url :: visited) (pc + 1)
                    rw [crawl_ok_true w f url visited pc doc hv hw]
                    refine ⟨?_, ?_, ?_⟩
                    · show (listUrls (Event.fetchList url
                        :: (crawl w f (simplifiedNext doc) (url :: visited) (pc + 1)).events)).Nodup
                      rw [listUrls_fetchList_cons]
                      refine List.nodup_cons.mpr ⟨fun hmem => ?_, ihn⟩
                      exact (ihf url hmem) (List.mem_cons_self url visited)
                    · intro u hu
                      have hu' : u ∈ listUrls (Event.fetchList url
                          :: (crawl w f (simplifiedNext doc) (url :: visited) (pc + 1)).events) := hu
                      rw [listUrls_fetchList_cons] at hu'
                      rcases List.mem_cons.mp hu' with h1 | h1
                      · rw [h1]; exact hv
                      · intro hmem
                        exact (ihf u h1) (List.mem_cons_of_mem url hmem)
                    · exact (List.subset_cons_self url visited).trans ihs
                | false =>
                    obtain ⟨ihn, ihf, ihs⟩ := ih (nextPageUrl doc) (url :: visited) (pc + 1)
                    rw [crawl_ok_false w f url visited pc doc hv hw]
                    refine ⟨?_, ?_, ?_⟩
                    · show (listUrls (Event.fetchList url
                        :: ((processItems w (pc + 1) (collectItems doc)).2
                            ++ (crawl w f (nextPageUrl doc) (url :: visited) (pc + 1)).events))).Nodup
                      rw [listUrls_page_events]
                      refine List.nodup_cons.mpr ⟨fun hmem => ?_, ihn⟩
                      exact (ihf url hmem) (List.mem_cons_self url visited)
                    · intro u hu
                      have hu' : u ∈ listUrls (Event.fetchList url
                          :: ((processItems w (pc + 1) (collectItems doc)).2
                              ++ (crawl w f (nextPageUrl doc) (url :: visited) (pc + 1)).events)) := hu
                      rw [listUrls_page_events] at hu'
                      rcases List.mem_cons.mp hu' with h1 | h1
                      · rw [h1]; exact hv
                      · intro hmem
                        exact (ihf u h1) (List.mem_cons_of_mem url hmem)
                    · exact (List.subset_cons_self url visited).trans ihs

/-! ### Concrete runs: witnesses and counterexamples -/

/-- A detail page with a matching description container. -/
def detailDoc1 : Node := el "html" [] [el "div" ["cont-in-box"] [txt "A lovely palace."]]

/-- A list page with an `item-list` container holding one `li` item. -/
def listDoc1 : Node :=
  el "html" []
    [el "ul" ["item-list"]
      [el "li" [] [el "h3" [] [txt "Palace"], aHref "/a1" [] [txt "go"]]]]

/-- A one-page world: the start URL serves `listDoc1`, the single item's
detail URL serves `detailDoc1`. -/
def W1 : World :=
  { listPages := fun u => if u == START_URL then .ok listDoc1 false else .fetchErr "no page",
    detailPages := fun u =>
      if u == urljoin BASE_URL "/a1" then .ok detailDoc1 else .err "timeout" }

/-- The record the `W1` run stores. -/
def rec1 : Record :=
  ⟨1, "Palace", urljoin BASE_URL "/a1", "A lovely palace.", "Transportation info not found"⟩

/-- C1 witness: the one record of the concrete `W1` run is stored and its
link starts with the base origin. -/
theorem C1_links_on_origin_witness :
    rec1 ∈ (runScraper W1 2).records ∧ pyStartsWith BASE_URL rec1.link = true :=
  ⟨by decide, C1_links_on_origin W1 2 (some START_URL) [] 0 rec1 (by decide)⟩

set_option maxRecDepth 8192 in
/-- C2 witness: the 301-character description is truncated to the marked
315-character form, and a short description is stored as its strip. -/
theorem C2_truncation_law_witness :
    (300 < longDescInput.length
      ∧ pyEndsWith truncMarker (truncateDesc longDescInput) = true
      ∧ (truncateDesc longDescInput).length
          = (pyStrip (pyTake 300 longDescInput)).length + truncMarker.length)
    ∧ ("abc".length ≤ 300 ∧ truncateDesc "abc" = pyStrip "abc") :=
  ⟨⟨by decide, ((C2_truncation_law longDescInput).1 (by decide)).1,
    ((C2_truncation_law longDescInput).1 (by decide)).2⟩,
   by decide, (C2_truncation_law "abc").2.1 (by decide)⟩

/-- An item holding one on-origin anchor. -/
def itemA : Node := el "li" [] [aHref "/x" [] [txt "X spot"]]

/-- A world whose detail fetches always fail with a timeout. -/
def WerrDetail : World :=
  { listPages := fun _ => .fetchErr "offline", detailPages := fun _ => .err "timeout" }

/-- An empty bare page. -/
def bareDoc : Node := el "html" [] []

/-- A world serving `bareDoc` at URL "s". -/
def W4 : World :=
  { listPages := fun u => if u == "s" then .ok bareDoc false else .fetchErr "e",
    detailPages := fun _ => .err "e" }

/-- C4 witness: re-encountering the visited URL "s" terminates at once
with nothing fetched; a fresh run's fetched list URLs are distinct; and
an initial visited set survives into the final one. -/
theorem C4_visited_set_witness :
    crawl W4 5 (some "s") ["s"] 0 = ⟨[], [], ["s"]⟩
    ∧ (listUrls (crawl W4 5 (some "s") [] 0).events).Nodup
    ∧ ["q"] ⊆ (crawl W4 5 (some "s") ["q"] 0).visitedOut :=
  ⟨(C4_visited_set W4 5 (some "s") ["s"] 0).1 "s" (by decide),
   (C4_visited_set W4 5 (some "s") [] 0).2.1,
   (C4_visited_set W4 5 (some "s") ["q"] 0).2.2.2⟩

/-- A page whose only next-page hint is a bare "Next" anchor. -/
def procDoc : Node := el "html" [] [aHref "/p2" [] [txt "Next"]]

/-- A world where "u1" fails to fetch and "u2" raises a processing
exception after parsing `procDoc`. -/
def W5 : World :=
  { listPages := fun u =>
      if u == "u1" then .fetchErr "conn reset"
      else if u == "u2" then .ok procDoc true
      else .fetchErr "nope",
    detailPages := fun _ => .err "x" }

/-- C5 witness: the fetch error on "u1" stops the run with that single
fetch event; the processing exception on "u2" continues through the
simplified next-page search of `procDoc`. -/
theorem C5_list_page_failures_witness :
    "u1" ∉ ([] : List String)
    ∧ W5.listPages "u1" = .fetchErr "conn reset"
    ∧ crawl W5 3 (some "u1") [] 0 = ⟨[], [Event.fetchList "u1"], ["u1"]⟩
    ∧ W5.listPages "u2" = .ok procDoc true
    ∧ crawl W5 3 (some "u2") [] 0
        = ⟨(crawl W5 2 (simplifiedNext procDoc) ["u2"] 1).records,
           Event.fetchList "u2" :: (crawl W5 2 (simplifiedNext procDoc) ["u2"] 1).events,
           (crawl W5 2 (simplifiedNext procDoc) ["u2"] 1).visitedOut⟩ :=
  ⟨by decide, by decide,
   (C5_list_page_failures W5 2 "u1" [] 0 (by decide)).1 "conn reset" (by decide),
   by decide,
   (C5_list_page_failures W5 2 "u2" [] 0 (by decide)).2.1 procDoc (by decide)⟩

/-- A detail page whose main-content region holds no paragraph. -/
def C6doc : Node := el "html" [] [el "main" [] [txt "plain words only"]]

/-- C6 counterexample: with no matching container and a main-content
region without any paragraph, the stored description is the distinct
placeholder "Main content found, but no <p> tag.", not the literal
"Description not found" the claim requires whenever no main-content
paragraph resolves. -/
theorem C6_counterexample :
    (scrapeParse C6doc).description = "Main content found, but no <p> tag."
    ∧ (scrapeParse C6doc).description ≠ "Description not found" :=
  ⟨by decide, by decide⟩

/-- A detail page with no matching container and a `main` with one
paragraph "Hello". -/
def helloDoc : Node := el "html" [] [el "main" [] [el "p" [] [txt "Hello"]]]

/-- The `main` element of `helloDoc`. -/
def helloMain : Node := el "main" [] [el "p" [] [txt "Hello"]]

/-- The paragraph of `helloDoc`. -/
def helloP : Node := el "p" [] [txt "Hello"]

/-- A detail page whose only main-content region is a `div#content`,
holding one paragraph "Inside". -/
def contentDivDoc : Node := el "html" [] [elId "div" "content" [el "p" [] [txt "Inside"]]]

/-- The `div#content` region of `contentDivDoc`. -/
def contentDiv : Node := elId "div" "content" [el "p" [] [txt "Inside"]]

/-- A detail page whose only main-content region is a `div#content`
with no paragraph. -/
def contentDivNoP : Node := el "html" [] [elId "div" "content" [txt "words only"]]

/-- C6 witness: on `helloDoc` the fallback stores exactly "Hello"; on a
`div#content`-only page it stores the paragraph text "Inside"; on a
`div#content`-only page without a paragraph it stores the no-paragraph
placeholder; and on a bare page with neither region the literal
"Description not found" is stored. -/
theorem C6_description_fallback_witness :
    (cleanN helloDoc).2 = none
    ∧ ((findN isMain helloDoc).orElse fun _ => findN isDivContent helloDoc) = some helloMain
    ∧ findL isP helloMain.childrenL = some helloP
    ∧ (scrapeParse helloDoc).description = "Hello"
    ∧ ((findN isMain contentDivDoc).orElse fun _ => findN isDivContent contentDivDoc)
        = some contentDiv
    ∧ (scrapeParse contentDivDoc).description = "Inside"
    ∧ (scrapeParse contentDivNoP).description = "Main content found, but no <p> tag."
    ∧ (scrapeParse bareDoc).description = "Description not found" :=
  ⟨by decide, by decide, by decide,
   by
     have h := (C6_description_fallback helloDoc).2.1 helloMain helloP
       (by decide) (by decide) (by decide)
     rw [h]
     decide,
   by decide,
   by
     have h := (C6_description_fallback contentDivDoc).2.1 contentDiv
       (el "p" [] [txt "Inside"]) (by decide) (by decide) (by decide)
     rw [h]
     decide,
   (C6_description_fallback contentDivNoP).2.2 (elId "div" "content" [txt "words only"])
     (by decide) (by decide) (by decide),
   (C6_description_fallback bareDoc).1 (by decide) (by decide) (by decide)⟩

/-- The transport heading of the C7 documents. -/
def C7heading : Node := el "h2" [] [txt "Access"]

/-- The non-content-bearing sibling following the heading. -/
def C7span : Node := el "span" [] [txt "x"]

/-- The content-bearing element following the heading's parent. -/
def C7pn : Node := el "div" [] [txt "Take subway line 2"]

/-- A detail page where the heading's next sibling is a `span` and the
parent's next sibling carries the real transport text. -/
def C7doc : Node := el "html" [] [el "div" [] [C7heading, C7span], C7pn]

/-- The heading context `findHeadN` extracts from `C7doc`. -/
def C7hi : HeadInfo := ⟨C7heading, some C7span, some C7pn⟩

/-- C7 counterexample: the heading's following sibling exists but is not
content-bearing, the parent's next sibling is available and
content-bearing, yet the code emits the "next sibling structure unclear"
diagnostic instead of attempting the parent's next sibling as the claim
states. -/
theorem C7_counterexample :
    findHeadN none none C7doc = some C7hi
    ∧ contentTags.contains C7span.tagOf = false
    ∧ getText "\n" C7pn = "Take subway line 2"
    ∧ transportOf C7doc = "Found heading 'Access', but next sibling structure unclear."
    ∧ transportOf C7doc ≠ "Take subway line 2" :=
  ⟨by decide, by decide, by decide, by decide, by decide⟩

/-- C7 witness: on `C7doc` the heading is found, the transport value is
what the heading heuristic dictates, and that value is the "unclear
structure" diagnostic. -/
theorem C7_transport_heading_witness :
    findHeadN none none C7doc = some C7hi
    ∧ transportOf C7doc = transportFromHeading C7hi
    ∧ transportFromHeading C7hi
        = "Found heading " ++ headingLabel C7hi ++ ", but next sibling structure unclear." :=
  ⟨by decide, (C7_transport_heading C7doc C7hi (by decide)).1,
   (C7_transport_heading C7doc C7hi (by decide)).2.2.1 C7span (by decide) (by decide)⟩

/-- An item with no anchor at all. -/
def noLinkItem : Node := el "li" [] [txt "nothing here"]

/-- C8 counterexample: an item with no link is skipped yet its event
trace still holds the politeness pause, with no detail fetch: the claim
that skipped items proceed "without any delay" fails. -/
theorem C8_counterexample :
    processItem WerrDetail 1 noLinkItem = (none, [Event.sleep])
    ∧ detailUrls (processItem WerrDetail 1 noLinkItem).2 = []
    ∧ (processItem WerrDetail 1 noLinkItem).2 ≠ ([] : List Event) :=
  ⟨by decide, by decide, by decide⟩

/-- A list page whose container holds both direct `li` and `div`
children. -/
def C10doc : Node :=
  el "html" []
    [el "ul" ["item-list"]
      [el "li" ["a"] [], el "div" ["b"] [], el "li" ["c"] []]]

/-- The container of `C10doc`. -/
def C10container : Node :=
  el "ul" ["item-list"] [el "li" ["a"] [], el "div" ["b"] [], el "li" ["c"] []]

/-- C10 witness: on `C10doc` the container is found, direct `li`
children exist, and the item collection takes exactly the two `li`
children, not the `div`. -/
theorem C10_item_collection_witness :
    containerOf C10doc = some C10container
    ∧ directTag "li" C10container.childrenL ≠ []
    ∧ collectItems C10doc = directTag "li" C10container.childrenL
    ∧ collectItems C10doc = [el "li" ["a"] [], el "li" ["c"] []] :=
  ⟨by decide, by decide,
   ((C10_item_collection C10doc).1 C10container (by decide)).1 (by decide),
   by decide⟩

/-! ### Cause-containment lemmas -/

theorem pyStripL_suffix_rstripL (e : List Char) : pyStripL e <:+ rstripL e := by
  conv_rhs => rw [← List.takeWhile_append_dropWhile (p := wsChar) (l := e)]
  unfold pyStripL rstripL
  rw [List.reverse_append, List.dropWhile_append]
  split
  · next hemp =>
      have h0 : (e.dropWhile wsChar).reverse.dropWhile wsChar = [] := by
        simpa using hemp
      rw [h0]
      simp
  · next =>
      rw [List.reverse_append, List.reverse_reverse]
      exact List.suffix_append _ _

theorem pyStrip_cause_infix {p e : List Char} (hne : p ≠ [])
    (hh : ∀ c, p.head? = some c → wsChar c = false) :
    pyStripL e <:+: pyStripL (p ++ e) := by
  obtain ⟨c, cs, rfl⟩ : ∃ c cs, p = c :: cs := by
    cases p with
    | nil => exact absurd rfl hne
    | cons c cs => exact ⟨c, cs, rfl⟩
  have hcw : wsChar c = false := hh c rfl
  show pyStripL e <:+: pyStripL ((c :: cs) ++ e)
  unfold pyStripL rstripL
  rw [List.cons_append, List.dropWhile_cons_of_neg (by simp [hcw]), ← List.cons_append,
      List.reverse_append, List.dropWhile_append]
  split
  · next hemp =>
      have he : ∀ x ∈ e.reverse, wsChar x := by
        simpa [List.dropWhile_eq_nil_iff] using hemp
      have he' : ∀ x ∈ e, wsChar x = true := fun x hx => he x (by simpa using hx)
      have h0 : e.dropWhile wsChar = [] := List.dropWhile_eq_nil_iff.mpr he'
      rw [h0]
      simp
  · next =>
      rw [List.reverse_append, List.reverse_reverse]
      obtain ⟨u, hu⟩ := pyStripL_suffix_rstripL e
      show pyStripL e <:+: (c :: cs) ++ rstripL e
      rw [← hu]
      exact ⟨(c :: cs) ++ u, [], by simp⟩

theorem containsL_of_infix {pat l : List Char} (h : pat <:+: l) : containsL pat l = true := by
  obtain ⟨s, t, rfl⟩ := h
  induction s with
  | nil =>
      cases hp : pat with
      | nil => cases t with
        | nil => rfl
        | cons x xs => simp [containsL]
      | cons c cs =>
          show containsL (c :: cs) ([] ++ (c :: cs) ++ t) = true
          simp only [List.nil_append, List.cons_append]
          simp [containsL, List.prefix_append]
  | cons c s' ih =>
      show containsL pat (c :: (s' ++ pat ++ t)) = true
      simp [containsL]
      right
      simpa [List.append_assoc] using ih

theorem pyContains_of_infix {p s : String} (h : p.data <:+: s.data) :
    pyContains p s = true := containsL_of_infix h

theorem errSpace_head :
    ∀ c, ("Error fetching page: " : String).data.head? = some c → wsChar c = false := by
  intro c hc
  rw [show ("Error fetching page: " : String).data.head? = some 'E' from by decide] at hc
  injection hc with h
  subst h
  decide

/-- C3 (amended): a detail-page fetch failure is local to the item.  For
an item whose link is present and on-origin but whose detail fetch
raises, the stored record carries "Error fetching page:" plus the
(possibly truncated) cause in the description and "Error fetching
page:" plus the full whitespace-stripped cause in the transport field;
the record is still appended in front of whatever the remaining items
produce, and those remaining items are processed as usual.  The
description embeds the stripped cause in full only while the whole
diagnostic stays within the 300-character truncation bound of lines
76-77; the transport field always does. -/
theorem C3_detail_fetch_error (w : World) (pc : Nat) (it : Node) (rest : List Node)
    (l e : String) (h1 : extractLink it = some l) (h2 : pyStartsWith BASE_URL l = true)
    (h3 : w.detailPages l = .err e) :
    (processItems w pc (it :: rest)).1
      = ⟨pc, extractName it, l, (scrape_details w l).1, (scrape_details w l).2⟩
          :: (processItems w pc rest).1
    ∧ pyContains "Error fetching page:" (scrape_details w l).1 = true
    ∧ pyContains "Error fetching page:" (scrape_details w l).2 = true
    ∧ pyContains (pyStrip e) (scrape_details w l).2 = true
    ∧ (("Error fetching page: " ++ e).length ≤ 300 →
        pyContains (pyStrip e) (scrape_details w l).1 = true) := by
  have hsd : scrape_details w l
      = (truncateDesc ("Error fetching page: " ++ e),
         pyStrip ("Error fetching page: " ++ e)) := by
    simp [scrape_details, h3]
  have hd : ("Error fetching page: " ++ e).data
      = ("Error fetching page: " : String).data ++ e.data := strData_append _ _
  have hcause : (pyStrip e).data <:+: (pyStrip ("Error fetching page: " ++ e)).data := by
    show pyStripL e.data <:+: pyStripL ("Error fetching page: " ++ e).data
    rw [hd]
    exact pyStrip_cause_infix (by decide) errSpace_head
  refine ⟨?_, ?_, ?_, ?_, ?_⟩
  · simp [processItems, processItem, h1, h2]
  · rw [hsd]
    exact pyContains_of_prefix
      (prefix_truncateDesc (errMarkerLeads e) (by decide) errMarker_head errMarker_last
        (by decide))
  · rw [hsd]
    exact pyContains_of_prefix
      (prefix_pyStripL (errMarkerLeads e) (by decide) errMarker_head errMarker_last)
  · rw [hsd]
    exact pyContains_of_infix hcause
  · intro hlen
    rw [hsd]
    show pyContains (pyStrip e) (truncateDesc ("Error fetching page: " ++ e)) = true
    rw [truncateDesc_of_short hlen]
    exact pyContains_of_infix hcause

/-- A 400-character error cause. -/
def longCause : String := String.mk (List.replicate 400 'c')

/-- A world whose detail fetches fail with the long cause. -/
def WerrLong : World :=
  { listPages := fun _ => .fetchErr "x", detailPages := fun _ => .err longCause }

set_option maxRecDepth 8192 in
/-- C3 counterexample: with a 400-character error cause the stored
description still contains "Error fetching page:" but no longer
contains the cause — the 300-character truncation of lines 76-77 cuts
it — while the transport field keeps the full cause.  The claim that
both fields contain the diagnostic "together with the error cause"
fails on the description. -/
theorem C3_counterexample :
    WerrLong.detailPages "u" = .err longCause
    ∧ pyContains "Error fetching page:" (scrape_details WerrLong "u").1 = true
    ∧ pyContains longCause (scrape_details WerrLong "u").1 = false
    ∧ pyContains longCause (scrape_details WerrLong "u").2 = true := by
  refine ⟨by decide, by decide, by decide, by decide⟩

/-- C3 witness: under `WerrDetail` (cause "timeout") the item `itemA`
still yields a record placed in front of the (empty) rest, both fields
carry the "Error fetching page:" diagnostic, the transport carries the
cause, and — the diagnostic being short — so does the description. -/
theorem C3_detail_fetch_error_witness :
    extractLink itemA = some (urljoin BASE_URL "/x")
    ∧ pyStartsWith BASE_URL (urljoin BASE_URL "/x") = true
    ∧ WerrDetail.detailPages (urljoin BASE_URL "/x") = .err "timeout"
    ∧ ((processItems WerrDetail 7 [itemA]).1
        = ⟨7, extractName itemA, urljoin BASE_URL "/x",
            (scrape_details WerrDetail (urljoin BASE_URL "/x")).1,
            (scrape_details WerrDetail (urljoin BASE_URL "/x")).2⟩
          :: (processItems WerrDetail 7 ([] : List Node)).1
        ∧ pyContains "Error fetching page:"
            (scrape_details WerrDetail (urljoin BASE_URL "/x")).1 = true
        ∧ pyContains "Error fetching page:"
            (scrape_details WerrDetail (urljoin BASE_URL "/x")).2 = true
        ∧ pyContains (pyStrip "timeout")
            (scrape_details WerrDetail (urljoin BASE_URL "/x")).2 = true)
    ∧ ("Error fetching page: " ++ "timeout").length ≤ 300
    ∧ pyContains (pyStrip "timeout")
        (scrape_details WerrDetail (urljoin BASE_URL "/x")).1 = true := by
  have H := C3_detail_fetch_error WerrDetail 7 itemA [] (urljoin BASE_URL "/x") "timeout"
    (by decide) (by decide) (by decide)
  exact ⟨by decide, by decide, by decide,
    ⟨H.1, H.2.1, H.2.2.1, H.2.2.2.1⟩, by decide, H.2.2.2.2 (by decide)⟩
